import Mathlib

/-!
Shallow embedding of `tools/plot_task_dependencies.py` (SWIFT task-dependency
graph plotter) and proofs about its behaviour.

Python strings are modelled as Lean `String`; the Python substring test
`sub in s` is modelled by `strContains`, `s.startswith(p)` by `strStarts`,
and `s.rstrip()` by `rstrip`.  Python's `raise` is modelled with `Except`.
-/

/-- Python `sub in s`: substring containment, as a Bool like the Python expression. -/
def strContains (sub s : String) : Bool := decide (sub.data <:+: s.data)

/-- Python `s.startswith(p)`, as a Bool. -/
def strStarts (p s : String) : Bool := decide (p.data <+: s.data)

/-- Whitespace characters stripped by Python `str.rstrip()`. -/
def pySpace (c : Char) : Bool :=
  c = ' ' || c = '\t' || c = '\n' || c = '\r' || c = Char.ofNat 11 || c = Char.ofNat 12

/-- Python `s.rstrip()`: drop trailing whitespace. -/
def rstrip (s : String) : String := ⟨(s.data.reverse.dropWhile pySpace).reverse⟩

/-- The `task_colours` dict defined at the top of the script (lines 16-23). -/
def task_colours : List (String × String) :=
  [("black_holes", "forestgreen"),
   ("stars", "darkorange1"),
   ("hydro", "blue3"),
   ("gravity", "red3"),
   ("RT", "springgreen"),
   ("sink", "lightseagreen")]

/-- Python dict access `d[k]`.  A missing key raises KeyError in Python; every
access in the script uses one of the six keys present in `task_colours`, so the
default branch is never taken there. -/
def dictGet (d : List (String × String)) (k : String) : String :=
  (d.lookup k).getD "KeyError"

/-- Embeds `task_is_black_holes` (lines 164-176). -/
def task_is_black_holes (name : String) : Bool :=
  strContains "bh" name || strContains "bpart" name || strContains "swallow" name

/-- Embeds `task_is_stars` (lines 179-194). -/
def task_is_stars (name : String) : Bool :=
  strContains "stars" name || strContains "spart" name || strContains "sf_count" name

/-- Embeds `task_is_hydro` (lines 197-235), including the trailing exact-name list. -/
def task_is_hydro (name : String) : Bool :=
  strContains "hydro" name ||
  strContains "_part" name ||
  (strContains "density" name && !strContains "stars" name && !strContains "bh" name) ||
  (strContains "rho" name && !strContains "bpart" name) ||
  (strContains "gradient" name && !strContains "rt_gradient" name) ||
  (strContains "force" name && !strContains "grav" name) ||
  (strContains "xv" name && !strContains "bpart" name) ||
  decide (name ∈ ["sort", "ghost_in", "ghost", "ghost_out", "extra_ghost",
                  "cooling", "cooling_in", "cooling_out", "star_formation"])

/-- Embeds `task_is_gravity` (lines 238-252). -/
def task_is_gravity (name : String) : Bool :=
  strContains "gpart" name || strContains "grav" name

/-- Embeds `task_is_RT` (lines 255-269): substring `_rt` or the `rt_` start. -/
def task_is_RT (name : String) : Bool :=
  strContains "_rt" name || strStarts "rt_" name

/-- Embeds `task_is_sink` (lines 272-284). -/
def task_is_sink (name : String) : Bool :=
  strContains "sink" name

/-- Embeds `get_task_colour` (lines 127-161): ordered predicate chain, first
match wins, default colour "black". -/
def get_task_colour (taskname : String) : String :=
  if task_is_black_holes taskname then dictGet task_colours "black_holes"
  else if task_is_stars taskname then dictGet task_colours "stars"
  else if task_is_hydro taskname then dictGet task_colours "hydro"
  else if task_is_gravity taskname then dictGet task_colours "gravity"
  else if task_is_RT taskname then dictGet task_colours "RT"
  else if task_is_sink taskname then dictGet task_colours "sink"
  else "black"

/-- Discriminates the two outcomes of a modelled Python call: `true` when the
call returns, `false` when it raises. -/
def exceptOk {ε α : Type} : Except ε α → Bool
  | .ok _ => true
  | .error _ => false

/-- Embeds `get_git_version` (lines 90-124).  The argument `line` is the first
line of the file as returned by `f.readline()` (trailing newline included);
`git` is the version carried over from the previous file (`None` initially).
Python `line[0]` raises IndexError on an empty string; `line[2:]` is the
forgiving slice `String.drop 2`; the mismatch check raises when a previous
version exists and differs. -/
def get_git_version (line : String) (git : Option String) : Except String (Option String) :=
  if line.data = [] then .error "IndexError"
  else if line.data.head? ≠ some '#' then .ok none
  else
    let new_git := rstrip (line.drop 2)
    match git with
    | some g => if g ≠ new_git then .error "Files were not produced by the same version"
                else .ok (some new_git)
    | none => .ok (some new_git)

/-- Embeds the version handling of the `__main__` loop (lines 708-718): for
EACH file the script sets `git = None` (line 716) and then calls
`get_git_version(f, git)`, so every call receives `None` as the previous
version.  The input is the list of the files' first lines; the result is the
list of versions extracted per file, or the first raised error. -/
def main_loop_versions (firstLines : List String) : Except String (List (Option String)) :=
  firstLines.mapM (fun line => get_git_version line none)

/-- Python `"%s" % git` for the version slot: `None` prints as "None". -/
def pyFormatGit : Option String → String
  | none => "None"
  | some s => s

/-- Embeds the label line written by `write_header` (line 487). -/
def headerLabel (git : Option String) : String :=
  "\t label=\"Task dependencies for SWIFT " ++ pyFormatGit git ++ "\";\n"

/-- Errors `parse_args` can raise (lines 77-85): a missing input file, or the
mutually exclusive `--with-calls` and `--with-levels` flags both set. -/
inductive ParseError where
  | fileNotFound
  | conflictingFlags
deriving DecidableEq

/-- Embeds `parse_args` (lines 26-87) after argparse has bound the flags and
the positional file list.  `fileExists` stands for `os.path.exists`; the
existence loop (lines 77-79) runs before the flag-conflict check (lines
81-85), as in the source. -/
def parse_args (with_calls with_levels : Bool) (files : List String)
    (fileExists : String → Bool) : Except ParseError (Bool × Bool × List String) :=
  if ¬ files.all fileExists then .error .fileNotFound
  else if with_calls && with_levels then .error .conflictingFlags
  else .ok (with_calls, with_levels, files)

/-- One data row of the CSV table, restricted to the columns the claims below
touch.  `task_colour` is the column added by `set_task_colours` before the
writers run. -/
structure Row where
  task_in : String
  task_out : String
  cluster_in : String
  cluster_out : String
  number_link : Int
  number_rank : Int
  task_colour : String
deriving DecidableEq

/-- One step of the `written` bookkeeping in `write_header` (lines 498-540):
a task name is appended to `written` unless already present, and `write_task`
is called exactly when the name is appended. -/
def addUnique (w : List String) (x : String) : List String :=
  if x ∈ w then w else w ++ [x]

/-- Embeds the node-emission order of `write_header` (lines 465-542): the two
row loops (first over `task_in`, then over `task_out`) share one `written`
list, and each name added to it corresponds to exactly one `write_task` call,
hence one node declaration in the output.  The result is the list of declared
node names in emission order. -/
def write_header_tasks (rows : List Row) : List String :=
  (rows.map Row.task_out).foldl addUnique ((rows.map Row.task_in).foldl addUnique [])

/-- Lexicographic comparison of char lists by code point, the order `np.unique`
sorts strings in. -/
def charListLe : List Char → List Char → Bool
  | [], _ => true
  | _ :: _, [] => false
  | a :: as, b :: bs =>
      if a.val < b.val then true
      else if b.val < a.val then false
      else charListLe as bs

/-- String comparison used to model the sort inside `np.unique`. -/
def strLe (a b : String) : Bool := charListLe a.data b.data

/-- Insert a string into a sorted list (helper for the `np.unique` model). -/
def insertSorted (x : String) : List String → List String
  | [] => [x]
  | y :: ys => if strLe x y then x :: y :: ys else y :: insertSorted x ys

/-- Insertion sort on strings (helper for the `np.unique` model). -/
def sortStrings : List String → List String
  | [] => []
  | x :: xs => insertSorted x (sortStrings xs)

/-- Model of `np.unique` on string data: the distinct values in sorted order. -/
def npUnique (xs : List String) : List String := (sortStrings xs).dedup

/-- Embeds `write_clusters` (lines 571-608): collect the distinct values of the
`cluster_in` and `cluster_out` columns with `np.unique`, skip the value
"None", and for every other value emit one subgraph block (modelled as the
pair of the cluster name and its task list as passed to `write_cluster`,
lines 545-568). -/
def write_clusters (rows : List Row) : List (String × List String) :=
  (npUnique (rows.map Row.cluster_in ++ rows.map Row.cluster_out)).filterMap
    (fun cluster =>
      if cluster = "None" then none
      else
        some (cluster,
          npUnique (((rows.filter (fun r => r.cluster_in == cluster)).map Row.task_in)
            ++ ((rows.filter (fun r => r.cluster_out == cluster)).map Row.task_out))))

/-- The key `"%s_%s" % (ta, tb)` used for duplicate detection in
`write_dependencies` (line 637). -/
def joinedName (r : Row) : String := r.task_in ++ "_" ++ r.task_out

/-- The attributes of one emitted edge: endpoints, the `number_link` label, the
colour, and whether `",style=dashed"` was appended to the arrow string
(lines 644-650). -/
structure Edge where
  ta : String
  tb : String
  number_link : Int
  colour : String
  dashed : Bool
deriving DecidableEq

/-- The edge built for one row of `write_dependencies` (lines 630-650), given
the precomputed maximum rank: dashed exactly when the row's `number_rank`
differs from it. -/
def mkEdge (max_rank : Int) (r : Row) : Edge :=
  { ta := r.task_in, tb := r.task_out, number_link := r.number_link,
    colour := r.task_colour, dashed := r.number_rank ≠ max_rank }

/-- The text of one emitted edge line (lines 644-650). -/
def edgeLine (e : Edge) : String :=
  "\t " ++ e.ta ++ "->" ++ e.tb ++ "[label=" ++ toString e.number_link
    ++ ",color=" ++ e.colour ++ (if e.dashed then ",style=dashed" else "")
    ++ ",fontcolor=" ++ e.colour ++ "]\n"

/-- Embeds `data["number_rank"].max()` (line 628).  The default is irrelevant:
on an empty table the row loop of `write_dependencies` emits nothing. -/
def maxRank (rows : List Row) : Int :=
  ((rows.map Row.number_rank).max?).getD 0

/-- The row loop of `write_dependencies` (lines 630-650): for each row, build
the duplicate-detection key; raise if it was seen before; otherwise record it
in `written` and emit the edge. -/
def depLoop (max_rank : Int) : List Row → List String → Except String (List Edge)
  | [], _ => .ok []
  | r :: rs, written =>
      if joinedName r ∈ written then .error "Found two same task dependencies"
      else
        match depLoop max_rank rs (joinedName r :: written) with
        | .error e => .error e
        | .ok es => .ok (mkEdge max_rank r :: es)

/-- Embeds `write_dependencies` (lines 611-650): compute the maximum rank once,
then run the row loop with an empty `written` list.  Returns the emitted edges
in row order, or the raised error. -/
def write_dependencies (rows : List Row) : Except String (List Edge) :=
  depLoop (maxRank rows) rows []

/-- C4: for every task name containing "bh", "bpart" or "swallow" as a
substring, the classifier yields the black_holes category, i.e. its colour
"forestgreen", regardless of any other substrings present: the black-holes
predicate is tested first in `get_task_colour`. -/
theorem c4_black_holes_first (name : String)
    (h : "bh".data <:+: name.data ∨ "bpart".data <:+: name.data ∨
      "swallow".data <:+: name.data) :
    get_task_colour name = "forestgreen" := by
  have hb : task_is_black_holes name = true := by
    rcases h with h | h | h <;> simp [task_is_black_holes, strContains, h]
  simp [get_task_colour, hb]
  rfl

/-- C4 witness: the concrete name "swallow" contains "swallow" and is coloured
"forestgreen". -/
theorem c4_black_holes_first_witness : get_task_colour "swallow" = "forestgreen" :=
  c4_black_holes_first "swallow" (Or.inr (Or.inr (by decide)))

/-- C5: for every task name containing "grav" or "gpart" as a substring on
which none of the earlier predicates (black holes, stars, hydro) fires, the
classifier yields the gravity category, i.e. its colour "red3". -/
theorem c5_gravity_colour (name : String)
    (h : "grav".data <:+: name.data ∨ "gpart".data <:+: name.data)
    (hbh : task_is_black_holes name = false)
    (hst : task_is_stars name = false)
    (hhy : task_is_hydro name = false) :
    get_task_colour name = "red3" := by
  have hg : task_is_gravity name = true := by
    rcases h with h | h <;> simp [task_is_gravity, strContains, h]
  simp [get_task_colour, hbh, hst, hhy, hg]
  rfl

/-- C5 witness: the concrete name "grav_down" matches no earlier predicate and
is coloured "red3". -/
theorem c5_gravity_colour_witness : get_task_colour "grav_down" = "red3" :=
  c5_gravity_colour "grav_down" (Or.inl (by decide)) (by decide) (by decide) (by decide)

/-- C8: the classifier is a total function (it returns a colour string for
every name and models no raising code path), and on every task name matched by
none of the six subsystem predicates it falls back to the default category,
returned as the colour "black". -/
theorem c8_default_black (name : String)
    (hbh : task_is_black_holes name = false)
    (hst : task_is_stars name = false)
    (hhy : task_is_hydro name = false)
    (hgr : task_is_gravity name = false)
    (hrt : task_is_RT name = false)
    (hsi : task_is_sink name = false) :
    get_task_colour name = "black" := by
  simp [get_task_colour, hbh, hst, hhy, hgr, hrt, hsi]

/-- C8 witness: the concrete name "kick1" matches no predicate and is coloured
"black". -/
theorem c8_default_black_witness : get_task_colour "kick1" = "black" :=
  c8_default_black "kick1" (by decide) (by decide) (by decide) (by decide)
    (by decide) (by decide)

/-- C7: passing both `--with-calls` and `--with-levels` makes `parse_args`
raise (whatever the file list: either the missing-file error fires first or
the conflicting-flags error fires), and when the two flags are not both set,
`parse_args` never raises the conflicting-flags error. -/
theorem c7_exclusive_flags (wc wl : Bool) (files : List String)
    (fileExists : String → Bool) :
    (wc = true ∧ wl = true → exceptOk (parse_args wc wl files fileExists) = false) ∧
    (¬ (wc = true ∧ wl = true) →
      parse_args wc wl files fileExists ≠ .error .conflictingFlags) := by
  constructor
  · rintro ⟨rfl, rfl⟩
    unfold parse_args
    by_cases hf : files.all fileExists = true <;> simp [hf, exceptOk]
  · intro h
    have hcc : (wc && wl) = false := by
      cases wc <;> cases wl <;> simp_all
    unfold parse_args
    by_cases hf : files.all fileExists = true <;> simp [hf, hcc]

/-- C7 witness: with one existing file, both flags raise (first conjunct at
`wc = wl = true`) and `--with-calls` alone is not the conflicting-flags error
(second conjunct at `wc = true`, `wl = false`). -/
theorem c7_exclusive_flags_witness :
    exceptOk (parse_args true true ["graph.csv"] (fun _ => true)) = false ∧
    parse_args true false ["graph.csv"] (fun _ => true) ≠ .error .conflictingFlags :=
  ⟨(c7_exclusive_flags true true ["graph.csv"] (fun _ => true)).1 ⟨rfl, rfl⟩,
   (c7_exclusive_flags true false ["graph.csv"] (fun _ => true)).2 (by simp)⟩

/-- C10: when the first line of a file is non-empty and does not start with
the "#" comment marker, `get_git_version` returns None without raising -
whatever version was carried in - and the header label the run then writes
renders that None version as the text "None". -/
theorem c10_no_comment_returns_none (line : String) (git : Option String)
    (hne : line.data ≠ [])
    (hh : line.data.head? ≠ some '#') :
    get_git_version line git = .ok none ∧
      headerLabel none = "\t label=\"Task dependencies for SWIFT None\";\n" := by
  refine ⟨?_, rfl⟩
  unfold get_git_version
  rw [if_neg hne, if_pos hh]

/-- C10 witness: a file starting with a CSV header line instead of a comment,
read after a previous file had version "v1". -/
theorem c10_no_comment_returns_none_witness :
    get_git_version "task_in,task_out\n" (some "v1") = .ok none ∧
      headerLabel none = "\t label=\"Task dependencies for SWIFT None\";\n" :=
  c10_no_comment_returns_none "task_in,task_out\n" (some "v1") (by decide) (by decide)

/-- C1: the claim is right but the code is not.  `get_git_version` itself
raises on a version mismatch (second conjunct), and its docstring documents
its `git` argument as the previous file's version; but the `__main__` loop
resets `git` to None for every file before calling it, so a run over two
files whose first lines carry the differing versions "v1" and "v2" completes
with both versions extracted and no exception (first conjunct). -/
theorem c1_version_check_never_crosses_files :
    main_loop_versions ["# v1\n", "# v2\n"] = .ok [some "v1", some "v2"] ∧
      get_git_version "# v2\n" (some "v1") =
        .error "Files were not produced by the same version" :=
  ⟨rfl, rfl⟩

/-- Membership after folding `addUnique`: exactly the old members and the
folded names. -/
theorem mem_foldl_addUnique (xs : List String) (w : List String) (n : String) :
    n ∈ xs.foldl addUnique w ↔ n ∈ w ∨ n ∈ xs := by
  induction xs generalizing w with
  | nil => simp
  | cons x xs ih =>
      rw [List.foldl_cons, ih]
      unfold addUnique
      by_cases hx : x ∈ w
      · rw [if_pos hx]
        simp only [List.mem_cons]
        constructor
        · rintro (h | h)
          · exact Or.inl h
          · exact Or.inr (Or.inr h)
        · rintro (h | rfl | h)
          · exact Or.inl h
          · exact Or.inl hx
          · exact Or.inr h
      · rw [if_neg hx]
        simp only [List.mem_append, List.mem_singleton, List.mem_cons]
        tauto

/-- Folding `addUnique` preserves distinctness of the accumulator. -/
theorem nodup_foldl_addUnique (xs : List String) (w : List String) (hw : w.Nodup) :
    (xs.foldl addUnique w).Nodup := by
  induction xs generalizing w with
  | nil => simpa
  | cons x xs ih =>
      rw [List.foldl_cons]
      apply ih
      unfold addUnique
      by_cases hx : x ∈ w
      · rwa [if_pos hx]
      · rw [if_neg hx]
        simp [List.nodup_append, hw, hx]

/-- C9: the header writer declares every task name exactly once: the list of
emitted node declarations has no duplicate names, and a name is declared iff
it occurs in some row's task_in or task_out column. -/
theorem c9_unique_node_declarations (rows : List Row) :
    (write_header_tasks rows).Nodup ∧
      ∀ n, n ∈ write_header_tasks rows ↔
        ∃ r ∈ rows, r.task_in = n ∨ r.task_out = n := by
  constructor
  · exact nodup_foldl_addUnique _ _ (nodup_foldl_addUnique _ _ List.nodup_nil)
  · intro n
    unfold write_header_tasks
    rw [mem_foldl_addUnique, mem_foldl_addUnique]
    simp only [List.not_mem_nil, false_or, List.mem_map]
    constructor
    · rintro (⟨r, hr, rfl⟩ | ⟨r, hr, rfl⟩)
      · exact ⟨r, hr, Or.inl rfl⟩
      · exact ⟨r, hr, Or.inr rfl⟩
    · rintro ⟨r, hr, rfl | rfl⟩
      · exact Or.inl ⟨r, hr, rfl⟩
      · exact Or.inr ⟨r, hr, rfl⟩

/-- The row loop returns normally exactly when the joined keys of the rows are
pairwise distinct and none of them was already recorded in `written`. -/
theorem depLoop_ok_iff (m : Int) (rows : List Row) (written : List String) :
    exceptOk (depLoop m rows written) = true ↔
      (rows.map joinedName).Nodup ∧ ∀ n ∈ rows.map joinedName, n ∉ written := by
  induction rows generalizing written with
  | nil => simp [depLoop, exceptOk]
  | cons r rs ih =>
      rw [depLoop]
      by_cases hw : joinedName r ∈ written
      · rw [if_pos hw]
        simp only [exceptOk, Bool.false_eq_true, false_iff, not_and]
        intro _ hall
        exact (hall (joinedName r) (by simp)) hw
      · rw [if_neg hw]
        have hmatch :
            exceptOk (match depLoop m rs (joinedName r :: written) with
              | .error e => (.error e : Except String (List Edge))
              | .ok es => .ok (mkEdge m r :: es)) =
            exceptOk (depLoop m rs (joinedName r :: written)) := by
          cases depLoop m rs (joinedName r :: written) <;> rfl
        rw [hmatch, ih, List.map_cons]
        constructor
        · rintro ⟨hnd, hall⟩
          have hnotin : joinedName r ∉ rs.map joinedName := fun hmem =>
            (hall _ hmem) (List.mem_cons_self _ _)
          refine ⟨List.nodup_cons.mpr ⟨hnotin, hnd⟩, ?_⟩
          intro n hn
          rcases List.mem_cons.mp hn with rfl | hn'
          · exact hw
          · exact fun hnw => (hall n hn') (List.mem_cons_of_mem _ hnw)
        · rintro ⟨hnd, hall⟩
          obtain ⟨hnotin, hnd'⟩ := List.nodup_cons.mp hnd
          refine ⟨hnd', ?_⟩
          intro n hn hmem
          rcases List.mem_cons.mp hmem with rfl | hnw
          · exact hnotin hn
          · exact (hall n (List.mem_cons_of_mem _ hn)) hnw

/-- C3 amended: the dependency writer raises its duplicate-edge error exactly
when two rows share the same joined key task_in ++ "_" ++ task_out.  Two rows
with identical (task_in, task_out) pairs always share it; but two rows with
distinct pairs can share it too, so distinctness of the pairs alone does not
guarantee the absence of the error. -/
theorem c3_duplicate_keys (rows : List Row) :
    exceptOk (write_dependencies rows) = true ↔ (rows.map joinedName).Nodup := by
  rw [write_dependencies, depLoop_ok_iff]
  simp

/-- Row ("a_b", "c") of the C3 counterexample. -/
def rowJoinLeft : Row := ⟨"a_b", "c", "None", "None", 1, 1, "black"⟩

/-- Row ("a", "b_c") of the C3 counterexample. -/
def rowJoinRight : Row := ⟨"a", "b_c", "None", "None", 1, 1, "black"⟩

/-- C3 counterexample: the two rows ("a_b", "c") and ("a", "b_c") have distinct
(task_in, task_out) pairs, yet the writer raises the duplicate-edge error,
because both rows produce the joined key "a_b_c".  This refutes the converse
half of the claim (all pairs distinct implies no duplicate-edge error). -/
theorem c3_distinct_pairs_still_raise :
    (rowJoinLeft.task_in, rowJoinLeft.task_out) ≠
      (rowJoinRight.task_in, rowJoinRight.task_out) ∧
    joinedName rowJoinLeft = joinedName rowJoinRight ∧
    write_dependencies [rowJoinLeft, rowJoinRight] =
      .error "Found two same task dependencies" :=
  ⟨by decide, by decide, rfl⟩

/-- When the row loop returns normally, it has emitted exactly one edge per
row, in row order, each built by `mkEdge` from its row. -/
theorem depLoop_ok_edges (m : Int) (rows : List Row) (written : List String)
    (es : List Edge) (h : depLoop m rows written = .ok es) :
    es = rows.map (mkEdge m) := by
  induction rows generalizing written es with
  | nil =>
      rw [depLoop] at h
      cases h
      rfl
  | cons r rs ih =>
      rw [depLoop] at h
      by_cases hw : joinedName r ∈ written
      · rw [if_pos hw] at h
        cases h
      · rw [if_neg hw] at h
        cases hrec : depLoop m rs (joinedName r :: written) with
        | error e => rw [hrec] at h; cases h
        | ok es' =>
            rw [hrec] at h
            cases h
            rw [List.map_cons, ih _ _ hrec]

/-- On a non-empty table, `maxRank` is the maximum of the `number_rank`
column: a member of it that every entry is at most. -/
theorem maxRank_is_max (rows : List Row) (hne : rows ≠ []) :
    maxRank rows ∈ rows.map Row.number_rank ∧
      ∀ x ∈ rows.map Row.number_rank, x ≤ maxRank rows := by
  cases hmax : (rows.map Row.number_rank).max? with
  | none =>
      rw [List.max?_eq_none_iff] at hmax
      exact absurd (List.map_eq_nil_iff.mp hmax) hne
  | some m =>
      have hmr : maxRank rows = m := by rw [maxRank, hmax]; rfl
      have hmem := List.max?_mem (fun a b => max_choice a b) hmax
      have hle : m ≤ m ↔ ∀ b ∈ rows.map Row.number_rank, b ≤ m :=
        List.max?_le_iff (fun a b c => max_le_iff) hmax
      rw [hmr]
      exact ⟨hmem, (hle.mp (le_refl m))⟩

/-- C6: when the dependency writer succeeds on a non-empty table, `maxRank` is
the maximum `number_rank` observed, one edge is emitted per row in order, and
the edge of row i is dashed exactly when that row's rank differs from the
maximum. -/
theorem c6_dashed_iff_not_max (rows : List Row) (es : List Edge)
    (hne : rows ≠ []) (h : write_dependencies rows = .ok es) :
    (maxRank rows ∈ rows.map Row.number_rank ∧
      ∀ x ∈ rows.map Row.number_rank, x ≤ maxRank rows) ∧
    es.length = rows.length ∧
    ∀ i (h1 : i < es.length) (h2 : i < rows.length),
      ((es.get ⟨i, h1⟩).dashed = true ↔
        (rows.get ⟨i, h2⟩).number_rank ≠ maxRank rows) := by
  have hes : es = rows.map (mkEdge (maxRank rows)) :=
    depLoop_ok_edges _ _ _ _ h
  subst hes
  refine ⟨maxRank_is_max rows hne, by simp, ?_⟩
  intro i h1 h2
  rw [List.get_eq_getElem, List.get_eq_getElem, List.getElem_map]
  simp [mkEdge]

/-- Concrete table for the C6 witness, with `number_rank` values 1, 2, 3. -/
def rowsRank123 : List Row :=
  [⟨"a", "b", "None", "None", 1, 1, "black"⟩,
   ⟨"a", "c", "None", "None", 2, 2, "black"⟩,
   ⟨"b", "c", "None", "None", 3, 3, "black"⟩]

/-- Edges the writer emits for `rowsRank123`: ranks 1 and 2 dashed, rank 3
(the maximum) not. -/
def edgesRank123 : List Edge :=
  [⟨"a", "b", 1, "black", true⟩,
   ⟨"a", "c", 2, "black", true⟩,
   ⟨"b", "c", 3, "black", false⟩]

/-- C6 witness: the theorem applied to the rank-[1,2,3] table, at the first
(dashed) and third (undashed) rows. -/
theorem c6_dashed_iff_not_max_witness :
    ((edgesRank123.get ⟨0, by decide⟩).dashed = true ↔
      (rowsRank123.get ⟨0, by decide⟩).number_rank ≠ maxRank rowsRank123) ∧
    ((edgesRank123.get ⟨2, by decide⟩).dashed = true ↔
      (rowsRank123.get ⟨2, by decide⟩).number_rank ≠ maxRank rowsRank123) :=
  ⟨(c6_dashed_iff_not_max rowsRank123 edgesRank123 (by decide) rfl).2.2 0
      (by decide) (by decide),
   (c6_dashed_iff_not_max rowsRank123 edgesRank123 (by decide) rfl).2.2 2
      (by decide) (by decide)⟩

/-- Membership through the sorted-insert helper. -/
theorem mem_insertSorted (x n : String) (l : List String) :
    n ∈ insertSorted x l ↔ n = x ∨ n ∈ l := by
  induction l with
  | nil => simp [insertSorted]
  | cons y ys ih =>
      rw [insertSorted]
      cases hxy : strLe x y
      · rw [if_neg (by simp [hxy])]
        rw [List.mem_cons, ih, List.mem_cons]
        tauto
      · rw [if_pos rfl]
        rw [List.mem_cons, List.mem_cons]

/-- Sorting preserves membership. -/
theorem mem_sortStrings (n : String) (l : List String) :
    n ∈ sortStrings l ↔ n ∈ l := by
  induction l with
  | nil => simp [sortStrings]
  | cons x xs ih => rw [sortStrings, mem_insertSorted, ih, List.mem_cons]

/-- The `np.unique` model keeps exactly the values of its input. -/
theorem mem_npUnique (n : String) (l : List String) :
    n ∈ npUnique l ↔ n ∈ l := by
  rw [npUnique, List.mem_dedup, mem_sortStrings]

/-- The `np.unique` model returns distinct values. -/
theorem nodup_npUnique (l : List String) : (npUnique l).Nodup :=
  List.nodup_dedup _

/-- The cluster names of the emitted subgraph blocks are the distinct values
of the two cluster columns with "None" filtered out. -/
theorem write_clusters_fst (rows : List Row) :
    (write_clusters rows).map Prod.fst =
      (npUnique (rows.map Row.cluster_in ++ rows.map Row.cluster_out)).filter
        (fun c => !(c == "None")) := by
  rw [write_clusters]
  generalize npUnique (rows.map Row.cluster_in ++ rows.map Row.cluster_out) = cs
  induction cs with
  | nil => rfl
  | cons c cs ih =>
      rw [List.filterMap_cons, List.filter_cons]
      by_cases hc : c = "None"
      · subst hc; simp [ih]
      · simp [hc, ih]

/-- C2 amended: the cluster writer emits exactly one subgraph block per
distinct value of the cluster_in/cluster_out columns other than the sentinel
"None" (capital N), and none for "None": the emitted cluster names are
distinct, and a name is emitted iff it is not "None" and occurs in some row's
cluster column. -/
theorem c2_one_block_per_cluster (rows : List Row) :
    ((write_clusters rows).map Prod.fst).Nodup ∧
      ∀ c, c ∈ (write_clusters rows).map Prod.fst ↔
        (c ≠ "None" ∧ ∃ r ∈ rows, r.cluster_in = c ∨ r.cluster_out = c) := by
  rw [write_clusters_fst]
  constructor
  · exact (nodup_npUnique _).filter _
  · intro c
    rw [List.mem_filter, mem_npUnique, List.mem_append]
    constructor
    · rintro ⟨hmem, hne⟩
      refine ⟨by simpa using hne, ?_⟩
      rcases hmem with hmem | hmem
      · obtain ⟨r, hr, rfl⟩ := List.mem_map.mp hmem
        exact ⟨r, hr, Or.inl rfl⟩
      · obtain ⟨r, hr, rfl⟩ := List.mem_map.mp hmem
        exact ⟨r, hr, Or.inr rfl⟩
    · rintro ⟨hne, r, hr, rfl | rfl⟩
      · exact ⟨Or.inl (List.mem_map.mpr ⟨r, hr, rfl⟩), by simpa using hne⟩
      · exact ⟨Or.inr (List.mem_map.mpr ⟨r, hr, rfl⟩), by simpa using hne⟩

/-- Row of the C2 counterexample: cluster columns "none" and "clusterA". -/
def rowClusterNone : Row := ⟨"t1", "t2", "none", "clusterA", 1, 1, "black"⟩

/-- C2 counterexample: on a table whose cluster columns hold "none" and
"clusterA", the writer emits a subgraph block for BOTH - the skip test at line
594 compares against the capitalised string "None", so the lowercase sentinel
"none" of the claim is not skipped.  This refutes the claim that only
"clusterA" produces a subgraph block. -/
theorem c2_lowercase_none_not_skipped :
    (write_clusters [rowClusterNone]).map Prod.fst = ["clusterA", "none"] := by
  decide

